import Mathlib

/-!
Verification of the moui widget-view render pipeline.

This file gives a shallow embedding of the code in
`src/moui/widgets/widget_view.cc`, `src/moui/widgets/widget.cc` and
`src/unnamed/part_001` (`BaseView::Redraw`), and proves properties of the
Visibility/Clip Planner (`WidgetView::PopulateWidgetList`), the Render
Executor (`WidgetView::Render` together with
`WidgetView::PopAndFinalizeWidgetItems`), the Hit-Test / Responder Resolver
(`WidgetView::ShouldHandleEvent`), the tree-wide pre/post render passes
(`WidgetView::WidgetViewWillRender` / `WidgetViewDidRender`), the
`Widget::AddChild` operation, and the redraw-coalescing protocol of
`BaseView::Redraw`.

C++ `float` arithmetic is embedded as exact rational arithmetic (`ℚ`);
pointer identity of `Widget*` objects is modelled by an `id` field.
-/

/-- Models `moui::Point` (a pair of floats). -/
structure Point where
  x : ℚ
  y : ℚ
deriving DecidableEq, Repr

/-- The attributes of a `moui::Widget` that the render pipeline reads.
`id` models the C++ object identity (the `Widget*` pointer value).
`width`, `height`, `x`, `y` are the already-resolved point values returned
by `Widget::GetWidth()`, `GetHeight()`, `GetX()`, `GetY()`; `scale` is
`Widget::scale()`; `hidden` is `Widget::IsHidden()`.  `accepts` models the
virtual `Widget::ShouldHandleEvent(const Point)` hit-test predicate
(default `false`, overridden by subclasses). -/
structure WidgetAttr where
  id : Nat
  hidden : Bool
  width : ℚ
  height : ℚ
  x : ℚ
  y : ℚ
  scale : ℚ
  accepts : Point → Bool

/-- A `moui::Widget` tree node: its attributes plus its ordered
`children_` list. -/
inductive Widget where
  | node : WidgetAttr → List Widget → Widget

/-- The attributes of a widget node. -/
def Widget.attr : Widget → WidgetAttr
  | .node a _ => a

/-- The `children_` list of a widget node (`Widget::children()`). -/
def Widget.childList : Widget → List Widget
  | .node _ cs => cs

/-- Models `WidgetView::WidgetItem` (widget_view.h): one record per visible
widget per frame.  The C++ struct also stores a raw `parent_item` pointer;
during planning it is only read through the parent's `translated_origin`,
`scissor_origin`, `scissor_width` and `scissor_height` fields, which here
are reached through the `Option WidgetItem` argument of
`populateWidgetList`, so the back-pointer itself is not stored. -/
structure WidgetItem where
  widget : Widget
  origin : Point
  width : ℚ
  height : ℚ
  level : Nat
  scale : ℚ
  translated_origin : Point
  scissor_origin : Point
  scissor_width : ℚ
  scissor_height : ℚ

/-- The per-node body of `WidgetView::PopulateWidgetList`
(widget_view.cc lines 84-140): decides whether the widget is visible and,
if so, builds its `WidgetItem`.  `vW`/`vH` are the view's `GetWidth()` /
`GetHeight()`, `scale` is the inherited scale argument, `parentItem` the
`parent_item` argument.  Each early `return` of the C++ code is a `none`
branch, in the same order as in the source. -/
def makeWidgetItem (vW vH : ℚ) (level : Nat) (scale : ℚ) (w : Widget)
    (parentItem : Option WidgetItem) : Option WidgetItem :=
  if w.attr.hidden then none else
  let kWidgetWidth := w.attr.width
  if kWidgetWidth ≤ 0 then none else
  let kWidgetHeight := w.attr.height
  if kWidgetHeight ≤ 0 then none else
  let kWidgetX := w.attr.x
  let kWidgetY := w.attr.y
  let kScaledWidgetWidth := kWidgetWidth * scale * w.attr.scale
  let kScaledWidgetHeight := kWidgetHeight * scale * w.attr.scale
  match parentItem with
  | none =>
      some { widget := w, origin := ⟨kWidgetX, kWidgetY⟩,
             width := kWidgetWidth, height := kWidgetHeight, level := level,
             scale := w.attr.scale, translated_origin := ⟨0, 0⟩,
             scissor_origin := ⟨0, 0⟩, scissor_width := kScaledWidgetWidth,
             scissor_height := kScaledWidgetHeight }
  | some p =>
      let tx := p.translated_origin.x + kWidgetX * scale
      let ty := p.translated_origin.y + kWidgetY * scale
      -- scissor_origin.x = max(parent scissor x, translated x);
      -- return if it is at or beyond the view width
      let sox := max p.scissor_origin.x tx
      if vW ≤ sox then none else
      let soy := max p.scissor_origin.y ty
      if vH ≤ soy then none else
      -- stops if the widget is invisible on the scissor's left or top
      if tx + kScaledWidgetWidth - 1 < sox ∨
         ty + kScaledWidgetHeight - 1 < soy then none else
      let kParentOriginX := p.scissor_origin.x
      let sw1 := min kScaledWidgetWidth
                     (kParentOriginX + p.scissor_width - sox)
      let sw2 := min sw1 (sox + kScaledWidgetWidth - kParentOriginX)
      if sw2 ≤ 0 ∨ sox + sw2 - 1 < 0 then none else
      let kParentOriginY := p.scissor_origin.y
      let sh1 := min kScaledWidgetHeight
                     (kParentOriginY + p.scissor_height - soy)
      let sh2 := min sh1 (soy + kScaledWidgetHeight - kParentOriginY)
      if sh2 ≤ 0 ∨ soy + sh2 - 1 < 0 then none else
      some { widget := w, origin := ⟨kWidgetX, kWidgetY⟩,
             width := kWidgetWidth, height := kWidgetHeight, level := level,
             scale := w.attr.scale, translated_origin := ⟨tx, ty⟩,
             scissor_origin := ⟨sox, soy⟩, scissor_width := sw2,
             scissor_height := sh2 }

mutual
/-- Models `WidgetView::PopulateWidgetList` (widget_view.cc lines 81-145):
if the widget is visible, append its item and recurse into its children
with `level + 1` and inherited scale `scale * widget->scale()`, passing the
fresh item as their parent item. -/
def populateWidgetList (vW vH : ℚ) (level : Nat) (scale : ℚ) :
    Widget → Option WidgetItem → List WidgetItem
  | w@(.node a cs), parentItem =>
    match makeWidgetItem vW vH level scale w parentItem with
    | none => []
    | some item =>
        item :: populateChildrenList vW vH (level + 1) (scale * a.scale) cs
                  (some item)

/-- The `for (Widget* child : widget->children())` loop of
`PopulateWidgetList`, in order. -/
def populateChildrenList (vW vH : ℚ) (level : Nat) (scale : ℚ) :
    List Widget → Option WidgetItem → List WidgetItem
  | [], _ => []
  | c :: rest, parentItem =>
      populateWidgetList vW vH level scale c parentItem ++
        populateChildrenList vW vH level scale rest parentItem
end

mutual
/-- Specification-side companion of `populateWidgetList` that emits each
node's item after all items of its children (post-order on the pruned
tree); it uses the same `makeWidgetItem` visibility computation.  Used to
express in which order the Render Executor finalizes items. -/
def postorderWidgetItems (vW vH : ℚ) (level : Nat) (scale : ℚ) :
    Widget → Option WidgetItem → List WidgetItem
  | w@(.node a cs), parentItem =>
    match makeWidgetItem vW vH level scale w parentItem with
    | none => []
    | some item =>
        postorderChildrenItems vW vH (level + 1) (scale * a.scale) cs
          (some item) ++ [item]

/-- Children part of `postorderWidgetItems`. -/
def postorderChildrenItems (vW vH : ℚ) (level : Nat) (scale : ℚ) :
    List Widget → Option WidgetItem → List WidgetItem
  | [], _ => []
  | c :: rest, parentItem =>
      postorderWidgetItems vW vH level scale c parentItem ++
        postorderChildrenItems vW vH level scale rest parentItem
end

mutual
/-- The pre-order listing of a widget tree: each node's `id` paired with
its depth (`level`), parent before any of its descendants. -/
def preorderIdLevels (level : Nat) : Widget → List (Nat × Nat)
  | .node a cs => (a.id, level) :: preorderIdLevelsList (level + 1) cs

/-- Children part of `preorderIdLevels`. -/
def preorderIdLevelsList (level : Nat) : List Widget → List (Nat × Nat)
  | [] => []
  | c :: rest =>
      preorderIdLevels level c ++ preorderIdLevelsList level rest
end

mutual
/-- The ids of all nodes of a widget tree, in pre-order. -/
def allIds : Widget → List Nat
  | .node a cs => a.id :: allIdsList cs

/-- The ids of all nodes of a forest, in pre-order. -/
def allIdsList : List Widget → List Nat
  | [] => []
  | c :: rest => allIds c ++ allIdsList rest
end

/-- Models `WidgetView::PopAndFinalizeWidgetItems` (widget_view.cc lines
64-76).  The `WidgetItemStack` is a list whose head is the stack top.
Returns the remaining stack together with the finalized items in the order
their `WidgetDidRender` hooks fire (pop order, top first). -/
def popAndFinalizeWidgetItems (level : Nat) :
    List WidgetItem → List WidgetItem × List WidgetItem
  | [] => ([], [])
  | top :: rest =>
      if top.level < level then (top :: rest, [])
      else
        let r := popAndFinalizeWidgetItems level rest
        (r.1, top :: r.2)

/-- The onscreen loop of `WidgetView::Render` (widget_view.cc lines
172-185) followed by the trailing `PopAndFinalizeWidgetItems(0, ...)` call
(line 185): consumes the flat item list, driving the rendering stack, and
returns the sequence of finalized items in the order their
`WidgetDidRender` hooks fire.  (For a `Nat` level the final call with
level 0 pops the whole stack, as in the source where every pushed level
is `>= 0`.) -/
def renderLoop : List WidgetItem → List WidgetItem → List WidgetItem
  | [], stack => (popAndFinalizeWidgetItems 0 stack).2
  | item :: rest, stack =>
      let r := popAndFinalizeWidgetItems item.level stack
      r.2 ++ renderLoop rest (item :: r.1)

/-- The finalize (`WidgetDidRender`) order produced by one `Render()` pass
over a flat widget-item list, starting from the empty rendering stack. -/
def renderFinalizeOrder (items : List WidgetItem) : List WidgetItem :=
  renderLoop items []

mutual
/-- Models the recursive `WidgetView::ShouldHandleEvent(const Point, Widget*)`
(widget_view.cc lines 206-222).  The mutable member `event_responder_` is
threaded as the `resp` argument; the result is the returned `bool` paired
with the responder state after the call. -/
def shouldHandleEventW (p : Point) :
    Widget → Option Widget → Bool × Option Widget
  | w@(.node _ cs), resp =>
      if w.attr.hidden then (false, resp)
      else shouldHandleChildren p cs resp

/-- The `for (auto it = children.rbegin(); it != children.rend(); it++)`
loop of `ShouldHandleEvent`: the later siblings (towards `rbegin`, i.e.
the tail of the list) are processed before the earlier ones, so the
recursion first handles the tail of the child list, then the head child
`c` (recursing into `c`'s subtree before testing `c` itself). -/
def shouldHandleChildren (p : Point) :
    List Widget → Option Widget → Bool × Option Widget
  | [], resp => (false, resp)
  | c :: rest, resp =>
      match shouldHandleChildren p rest resp with
      | (true, r) => (true, r)
      | (false, r) =>
          match shouldHandleEventW p c r with
          | (true, r2) => (true, r2)
          | (false, r2) =>
              if c.attr.accepts p then (true, some c) else (false, r2)
end

mutual
/-- The sequence of widgets the resolver tests with their own
`Widget::ShouldHandleEvent` predicate, in testing order: children in
reverse insertion order; for each child first the candidates inside its
subtree, then the child itself.  A hidden widget contributes no
candidates from its subtree (the recursion returns at its `IsHidden()`
check), but a hidden child is still tested by its parent's loop. -/
def hitCandidates : Widget → List Widget
  | w@(.node _ cs) => if w.attr.hidden then [] else hitCandidatesChildren cs

/-- Children part of `hitCandidates` (reverse insertion order). -/
def hitCandidatesChildren : List Widget → List Widget
  | [] => []
  | c :: rest => hitCandidatesChildren rest ++ (hitCandidates c ++ [c])
end

mutual
/-- Modelled from the spec: «walk children of each node in reverse
insertion order recursively; for each child, first recurse into its own
children, then test the child directly» — with no exclusion of hidden
subtrees, as in the claim's wording.  Only used to compare the claimed
testing order with the code's `hitCandidates`. -/
def specHitOrder : Widget → List Widget
  | .node _ cs => specHitOrderChildren cs

/-- Children part of `specHitOrder`. -/
def specHitOrderChildren : List Widget → List Widget
  | [] => []
  | c :: rest => specHitOrderChildren rest ++ (specHitOrder c ++ [c])
end

mutual
/-- The ids of the strict descendants of hidden nodes of a tree: for a
hidden node, all ids below it; for a visible node, the union over its
children. -/
def underHiddenIds : Widget → List Nat
  | .node a cs => if a.hidden then allIdsList cs else underHiddenIdsList cs

/-- Forest version of `underHiddenIds`. -/
def underHiddenIdsList : List Widget → List Nat
  | [] => []
  | c :: rest => underHiddenIds c ++ underHiddenIdsList rest
end

/-- One event of the tree-wide pre/post render passes
(`WidgetView::WidgetViewWillRender` / `WidgetViewDidRender`). -/
inductive RenderPassEv where
  | save : RenderPassEv
  | restore : RenderPassEv
  | viewWillRender : RenderPassEv
  | viewDidRender : RenderPassEv
  | widgetWillHook : Nat → RenderPassEv
  | widgetDidHook : Nat → RenderPassEv
deriving DecidableEq, Repr

mutual
/-- Models `WidgetView::WidgetViewWillRender` (widget_view.cc lines
235-244) as the trace of context saves/restores and hook invocations it
performs.  `isRoot` models the `widget == root_widget_` comparison: the
top-level call receives the root widget (hook `ViewWillRender`), recursive
calls receive children (hook `Widget::WidgetViewWillRender`, recorded with
the widget's id). -/
def widgetViewWillRenderTrace (isRoot : Bool) : Widget → List RenderPassEv
  | .node a cs =>
      [RenderPassEv.save,
       if isRoot then RenderPassEv.viewWillRender
       else RenderPassEv.widgetWillHook a.id,
       RenderPassEv.restore] ++ widgetViewWillRenderTraceList cs

/-- The `for (Widget* child : widget->children())` loop of
`WidgetViewWillRender`. -/
def widgetViewWillRenderTraceList : List Widget → List RenderPassEv
  | [] => []
  | c :: rest =>
      widgetViewWillRenderTrace false c ++ widgetViewWillRenderTraceList rest
end

mutual
/-- Models `WidgetView::WidgetViewDidRender` (widget_view.cc lines
224-233), as a trace, like `widgetViewWillRenderTrace`. -/
def widgetViewDidRenderTrace (isRoot : Bool) : Widget → List RenderPassEv
  | .node a cs =>
      [RenderPassEv.save,
       if isRoot then RenderPassEv.viewDidRender
       else RenderPassEv.widgetDidHook a.id,
       RenderPassEv.restore] ++ widgetViewDidRenderTraceList cs

/-- The children loop of `WidgetViewDidRender`. -/
def widgetViewDidRenderTraceList : List Widget → List RenderPassEv
  | [] => []
  | c :: rest =>
      widgetViewDidRenderTrace false c ++ widgetViewDidRenderTraceList rest
end

mutual
/-- The hook events of the will-render pass, in visiting order (the
full pre-order of the tree, hidden nodes included). -/
def willRenderHooks (isRoot : Bool) : Widget → List RenderPassEv
  | .node a cs =>
      (if isRoot then RenderPassEv.viewWillRender
       else RenderPassEv.widgetWillHook a.id) :: willRenderHooksList cs

/-- Forest version of `willRenderHooks`. -/
def willRenderHooksList : List Widget → List RenderPassEv
  | [] => []
  | c :: rest => willRenderHooks false c ++ willRenderHooksList rest
end

mutual
/-- The hook events of the did-render pass, in visiting order. -/
def didRenderHooks (isRoot : Bool) : Widget → List RenderPassEv
  | .node a cs =>
      (if isRoot then RenderPassEv.viewDidRender
       else RenderPassEv.widgetDidHook a.id) :: didRenderHooksList cs

/-- Forest version of `didRenderHooks`. -/
def didRenderHooksList : List Widget → List RenderPassEv
  | [] => []
  | c :: rest => didRenderHooks false c ++ didRenderHooksList rest
end

/-- The fields of a `moui::Widget` relevant to `Widget::AddChild`
(widget.h): the object identity, the `parent_` back-reference (by id),
the memoized `measured_scale_` (`none` means reset, i.e. to be
recomputed by `GetMeasuredScale()`), and the `children_` list (by id). -/
structure WidgetFields where
  id : Nat
  parent : Option Nat
  measuredScale : Option ℚ
  childIds : List Nat
deriving DecidableEq, Repr

/-- Models `Widget::AddChild` (widget.cc lines 30-32):
`children_.push_back(child);` — and nothing else.  Returns the updated
parent and child states. -/
def addChild (p c : WidgetFields) : WidgetFields × WidgetFields :=
  ({ p with childIds := p.childIds ++ [c.id] }, c)

/-- The flag state of `BaseView::Redraw` (`src/unnamed/part_001`,
lines 85-106): the two mutex-guarded flags plus a counter of completed
`RenderNativeView()` calls. -/
structure RedrawState where
  is_redrawing : Bool
  waiting_for_redraw : Bool
  render_count : Nat
deriving DecidableEq, Repr

/-- The first mutex-guarded section of `BaseView::Redraw` (lines 87-94):
if a redraw is in progress, set `waiting_for_redraw_` and return `false`
(the caller returns immediately); otherwise set `is_redrawing_` and
return `true` (the caller proceeds to `RenderNativeView()`). -/
def redrawEntry (s : RedrawState) : RedrawState × Bool :=
  if s.is_redrawing then ({ s with waiting_for_redraw := true }, false)
  else ({ s with is_redrawing := true }, true)

/-- Applies the first mutex-guarded section of `n` further `Redraw()`
calls that arrive while `RenderNativeView()` is running; the mutex
serializes them. -/
def applyConcurrentRedraws : Nat → RedrawState → RedrawState
  | 0, s => s
  | n + 1, s => applyConcurrentRedraws n (redrawEntry s).1

/-- Models `BaseView::Redraw` (src/unnamed/part_001 lines 85-106).
`arrivals` lists, per render pass, how many concurrent `Redraw()` calls
arrive while that pass's `RenderNativeView()` runs; `fuel` bounds the
re-trigger recursion depth (the theorems use enough fuel for the run to
complete). -/
def redraw : Nat → List Nat → RedrawState → RedrawState
  | 0, _, s => s
  | fuel + 1, arrivals, s =>
      match redrawEntry s with
      | (s1, false) => s1
      | (s1, true) =>
          -- RenderNativeView(), with the pass's concurrent arrivals
          let s2 := applyConcurrentRedraws (arrivals.headD 0)
                      { s1 with render_count := s1.render_count + 1 }
          -- the second mutex-guarded section (lines 99-103), then the
          -- conditional self re-trigger (lines 104-105)
          let s3 : RedrawState :=
            { is_redrawing := false, waiting_for_redraw := false,
              render_count := s2.render_count }
          if s2.waiting_for_redraw then redraw fuel arrivals.tail s3 else s3

/-! ### Helper lemmas -/

/-- Computation rule for `Widget.attr`. -/
theorem Widget.attr_node (a : WidgetAttr) (cs : List Widget) :
    (Widget.node a cs).attr = a := rfl

/-- Computation rule for `Widget.childList`. -/
theorem Widget.childList_node (a : WidgetAttr) (cs : List Widget) :
    (Widget.node a cs).childList = cs := rfl

/-- Mutual induction principle for `Widget` and `List Widget`. -/
theorem widgetInd (P : Widget → Prop) (Q : List Widget → Prop)
    (hnode : ∀ a cs, Q cs → P (Widget.node a cs))
    (hnil : Q []) (hcons : ∀ c cs, P c → Q cs → Q (c :: cs)) :
    (∀ w, P w) ∧ (∀ ws, Q ws) := by
  have hP : ∀ w, P w := fun w => @Widget.rec P Q hnode hnil hcons w
  exact ⟨hP, fun ws => List.rec hnil (fun c cs ih => hcons c cs (hP c) ih) ws⟩

/-- The fields of an item built by `makeWidgetItem` that do not depend on
the guard branches: the stored widget, its local origin, unscaled size,
level and own scale. -/
theorem makeWidgetItem_fields {vW vH : ℚ} {level : Nat} {scale : ℚ}
    {w : Widget} {pItem : Option WidgetItem} {it : WidgetItem}
    (h : makeWidgetItem vW vH level scale w pItem = some it) :
    it.widget = w ∧ it.origin = ⟨w.attr.x, w.attr.y⟩ ∧
    it.width = w.attr.width ∧ it.height = w.attr.height ∧
    it.level = level ∧ it.scale = w.attr.scale := by
  cases pItem with
  | none =>
      simp only [makeWidgetItem] at h
      split_ifs at h
      injection h with h2
      subst h2
      exact ⟨rfl, rfl, rfl, rfl, rfl, rfl⟩
  | some p =>
      simp only [makeWidgetItem] at h
      split_ifs at h
      injection h with h2
      subst h2
      exact ⟨rfl, rfl, rfl, rfl, rfl, rfl⟩

/-- The key of an item used to compare the planner's output with the tree's
pre-order listing: the node's id together with the item's `level`. -/
def itemKey (it : WidgetItem) : Nat × Nat := (it.widget.attr.id, it.level)

/-- The planner's output, keyed by node id and level, is a sublist of the
full pre-order listing of the tree (so items appear in pre-order, parents
before descendants, and each item's `level` is its node's depth). -/
theorem populate_key_sublist_preorder :
    (∀ (w : Widget) (vW vH : ℚ) (level : Nat) (scale : ℚ)
       (pItem : Option WidgetItem),
       ((populateWidgetList vW vH level scale w pItem).map itemKey).Sublist
         (preorderIdLevels level w)) ∧
    (∀ (ws : List Widget) (vW vH : ℚ) (level : Nat) (scale : ℚ)
       (pItem : Option WidgetItem),
       ((populateChildrenList vW vH level scale ws pItem).map itemKey).Sublist
         (preorderIdLevelsList level ws)) := by
  refine widgetInd _ _ ?_ ?_ ?_
  · intro a cs ih vW vH level scale pItem
    simp only [populateWidgetList, preorderIdLevels]
    cases hm : makeWidgetItem vW vH level scale (Widget.node a cs) pItem with
    | none => simp
    | some item =>
        obtain ⟨hw, -, -, -, hl, -⟩ := makeWidgetItem_fields hm
        have hkey : itemKey item = (a.id, level) := by
          simp [itemKey, hw, hl, Widget.attr]
        simp only [List.map_cons, hkey]
        exact (ih vW vH (level + 1) (scale * a.scale) (some item)).cons₂ _
  · intro vW vH level scale pItem
    simp [populateChildrenList, preorderIdLevelsList]
  · intro c cs ihc ihcs vW vH level scale pItem
    simp only [populateChildrenList, preorderIdLevelsList, List.map_append]
    exact (ihc vW vH level scale pItem).append (ihcs vW vH level scale pItem)

/-- Helper: `find?` on an appended list searches the left part first. -/
theorem find?_append_match {α : Type} (p : α → Bool) :
    ∀ l₁ l₂ : List α,
      (l₁ ++ l₂).find? p =
        match l₁.find? p with
        | some a => some a
        | none => l₂.find? p := by
  intro l₁ l₂
  induction l₁ with
  | nil => simp [List.find?]
  | cons a l ih =>
      cases hpa : p a <;> simp [List.find?, hpa, ih]

/-- The hit-test resolver is the linear search over `hitCandidates`: it
returns `true` with responder set to the first candidate whose own
predicate accepts the point, and `false` with the responder unchanged when
no candidate accepts it. -/
theorem shouldHandleEvent_eq_find :
    (∀ (w : Widget) (p : Point) (resp : Option Widget),
       shouldHandleEventW p w resp =
         match (hitCandidates w).find? (fun c => c.attr.accepts p) with
         | some c => (true, some c)
         | none => (false, resp)) ∧
    (∀ (ws : List Widget) (p : Point) (resp : Option Widget),
       shouldHandleChildren p ws resp =
         match (hitCandidatesChildren ws).find? (fun c => c.attr.accepts p) with
         | some c => (true, some c)
         | none => (false, resp)) := by
  refine widgetInd _ _ ?_ ?_ ?_
  · intro a cs ih p resp
    simp only [shouldHandleEventW, hitCandidates, Widget.attr_node]
    by_cases ha : a.hidden = true
    · simp [ha, List.find?]
    · simp only [ha, if_false]
      exact ih p resp
  · intro p resp
    simp [shouldHandleChildren, hitCandidatesChildren, List.find?]
  · intro c cs ihc ihcs p resp
    simp only [shouldHandleChildren, hitCandidatesChildren]
    rw [find?_append_match, find?_append_match, ihcs p resp]
    cases hrest : (hitCandidatesChildren cs).find? (fun c => c.attr.accepts p) with
    | some d => rfl
    | none =>
        simp only []
        rw [ihc p resp]
        cases hc : (hitCandidates c).find? (fun c => c.attr.accepts p) with
        | some e => rfl
        | none =>
            simp only [List.find?]
            cases hacc : c.attr.accepts p <;> simp [hacc]

/-- A widget's own id is among the ids of its tree. -/
theorem attrId_mem_allIds : ∀ w : Widget, w.attr.id ∈ allIds w
  | .node a cs => by simp [allIds, Widget.attr_node]

/-- Every tested candidate's id occurs in the tree. -/
theorem hitCandidates_id_mem :
    (∀ w : Widget, ∀ c ∈ hitCandidates w, c.attr.id ∈ allIds w) ∧
    (∀ ws : List Widget, ∀ c ∈ hitCandidatesChildren ws,
       c.attr.id ∈ allIdsList ws) := by
  refine widgetInd _ _ ?_ ?_ ?_
  · intro a cs ih c hc
    simp only [hitCandidates, Widget.attr_node] at hc
    by_cases ha : a.hidden = true
    · simp [ha] at hc
    · simp only [ha, if_false] at hc
      simp only [allIds, List.mem_cons]
      exact Or.inr (ih c hc)
  · intro c hc
    simp [hitCandidatesChildren] at hc
  · intro c cs ihc ihcs d hd
    simp only [hitCandidatesChildren, List.mem_append, List.mem_cons,
      List.mem_singleton, List.mem_nil_iff, or_false] at hd
    simp only [allIdsList, List.mem_append]
    rcases hd with hd | hd | rfl
    · exact Or.inr (ihcs d hd)
    · exact Or.inl (ihc d hd)
    · exact Or.inl (attrId_mem_allIds d)

/-- The ids under hidden nodes are ids of strict descendants. -/
theorem underHiddenIds_subset :
    (∀ w : Widget, ∀ x ∈ underHiddenIds w, x ∈ allIdsList w.childList) ∧
    (∀ ws : List Widget, ∀ x ∈ underHiddenIdsList ws, x ∈ allIdsList ws) := by
  refine widgetInd _ _ ?_ ?_ ?_
  · intro a cs ih x hx
    simp only [underHiddenIds, Widget.childList_node] at hx ⊢
    by_cases ha : a.hidden = true
    · simpa [ha] using hx
    · simp only [ha, if_false] at hx
      exact ih x hx
  · intro x hx
    simp [underHiddenIdsList] at hx
  · intro c cs ihc ihcs x hx
    simp only [underHiddenIdsList, List.mem_append] at hx
    simp only [allIdsList, List.mem_append]
    rcases hx with hx | hx
    · cases c with
      | node a css =>
          left
          have := ihc x hx
          simp only [Widget.childList_node] at this
          simp only [allIds, List.mem_cons]
          exact Or.inr this
    · exact Or.inr (ihcs x hx)

/-- Ids under hidden nodes are ids of the tree. -/
theorem underHiddenIds_subset_allIds (w : Widget) :
    ∀ x ∈ underHiddenIds w, x ∈ allIds w := by
  intro x hx
  cases w with
  | node a cs =>
      have := underHiddenIds_subset.1 _ x hx
      simp only [Widget.childList_node] at this
      simp only [allIds, List.mem_cons]
      exact Or.inr this

/-- In a tree with pairwise-distinct node ids, no tested candidate is a
strict descendant of a hidden node. -/
theorem hitCandidates_id_not_underHidden :
    (∀ w : Widget, (allIds w).Nodup →
       ∀ c ∈ hitCandidates w, c.attr.id ∉ underHiddenIds w) ∧
    (∀ ws : List Widget, (allIdsList ws).Nodup →
       ∀ c ∈ hitCandidatesChildren ws, c.attr.id ∉ underHiddenIdsList ws) := by
  refine widgetInd _ _ ?_ ?_ ?_
  · intro a cs ih hnd c hc
    simp only [allIds] at hnd
    simp only [hitCandidates, underHiddenIds, Widget.attr_node] at hc ⊢
    by_cases ha : a.hidden = true
    · simp [ha] at hc
    · simp only [ha, if_false] at hc ⊢
      exact ih (List.Nodup.of_cons hnd) c hc
  · intro _ c hc
    simp [hitCandidatesChildren] at hc
  · intro c cs ihc ihcs hnd d hd
    simp only [allIdsList] at hnd
    rw [List.nodup_append] at hnd
    obtain ⟨hn1, hn2, hdisj⟩ := hnd
    simp only [hitCandidatesChildren, List.mem_append, List.mem_cons,
      List.mem_singleton, List.mem_nil_iff, or_false] at hd
    simp only [underHiddenIdsList, List.mem_append]
    push_neg
    rcases hd with hd | hd | rfl
    · constructor
      · intro hmem
        exact hdisj (underHiddenIds_subset_allIds c _ hmem)
          (hitCandidates_id_mem.2 cs d hd)
      · exact ihcs hn2 d hd
    · constructor
      · exact ihc hn1 d hd
      · intro hmem
        exact hdisj (hitCandidates_id_mem.1 c d hd)
          (underHiddenIds_subset.2 cs _ hmem)
    · constructor
      · intro hmem
        cases d with
        | node a css =>
            have hsub := underHiddenIds_subset.1 _ _ hmem
            simp only [Widget.childList_node] at hsub
            simp only [allIds] at hn1
            exact (List.nodup_cons.mp hn1).1 (by
              simpa [Widget.attr_node] using hsub)
      · intro hmem
        exact hdisj (attrId_mem_allIds d) (underHiddenIds_subset.2 cs _ hmem)

/-- The pop loop pops exactly the maximal top run of stacked items whose
level is `≥` the incoming level, in top-down order, and leaves the rest of
the stack. -/
theorem popAndFinalize_take_drop (level : Nat) (s : List WidgetItem) :
    popAndFinalizeWidgetItems level s =
      (s.dropWhile (fun i => !decide (i.level < level)),
       s.takeWhile (fun i => !decide (i.level < level))) := by
  induction s with
  | nil => rfl
  | cons top rest ih =>
      by_cases h : top.level < level
      · simp [popAndFinalizeWidgetItems, List.dropWhile_cons,
          List.takeWhile_cons, h]
      · simp [popAndFinalizeWidgetItems, List.dropWhile_cons,
          List.takeWhile_cons, h, ih]

/-- A pop at level `0` pops the entire stack. -/
theorem popAndFinalize_zero (s : List WidgetItem) :
    popAndFinalizeWidgetItems 0 s = ([], s) := by
  induction s with
  | nil => rfl
  | cons top rest ih =>
      simp [popAndFinalizeWidgetItems, ih]

/-- A pop pops nothing when the stack top is already below the incoming
level. -/
theorem popAndFinalize_no_pop {level : Nat} {s : List WidgetItem}
    (h : ∀ j ∈ s, j.level < level) :
    popAndFinalizeWidgetItems level s = (s, []) := by
  cases s with
  | nil => rfl
  | cons top rest =>
      simp [popAndFinalizeWidgetItems, h top (by simp)]

/-- The stack splits into the popped run and the remaining stack. -/
theorem popAndFinalize_split (level : Nat) (s : List WidgetItem) :
    (popAndFinalizeWidgetItems level s).2 ++
      (popAndFinalizeWidgetItems level s).1 = s := by
  rw [popAndFinalize_take_drop]
  exact List.takeWhile_append_dropWhile _ _

/-- The executor finalizes, as a multiset, exactly the items it was given
together with what was already on the stack. -/
theorem renderLoop_perm : ∀ (L stack : List WidgetItem),
    (renderLoop L stack).Perm (L ++ stack) := by
  intro L
  induction L with
  | nil =>
      intro stack
      simp [renderLoop, popAndFinalize_zero]
  | cons it rest ih =>
      intro stack
      have hsplit := popAndFinalize_split it.level stack
      set r := popAndFinalizeWidgetItems it.level stack with hr
      have h0 : renderLoop (it :: rest) stack =
          r.2 ++ renderLoop rest (it :: r.1) := by
        simp only [renderLoop, hr]
      have h1 : (r.2 ++ renderLoop rest (it :: r.1)).Perm
          (r.2 ++ (rest ++ (it :: r.1))) :=
        (ih (it :: r.1)).append_left r.2
      have h2 : (r.2 ++ (rest ++ (it :: r.1))).Perm
          (r.2 ++ (it :: (rest ++ r.1))) :=
        (List.perm_middle).append_left r.2
      have h3 : (r.2 ++ (it :: (rest ++ r.1))).Perm
          (it :: (r.2 ++ (rest ++ r.1))) := List.perm_middle
      have h4 : (r.2 ++ (rest ++ r.1)).Perm (rest ++ (r.2 ++ r.1)) := by
        rw [← List.append_assoc, ← List.append_assoc]
        exact List.perm_append_comm.append_right r.1
      rw [h0, ← hsplit]
      refine (h1.trans (h2.trans (h3.trans (h4.cons it)))).trans ?_
      rw [List.cons_append]

/-- The head item produced by the planner for a node sits at the node's
level. -/
theorem populate_head_level {w : Widget} {vW vH : ℚ} {level : Nat}
    {scale : ℚ} {pItem : Option WidgetItem} {it : WidgetItem}
    {rest : List WidgetItem}
    (h : populateWidgetList vW vH level scale w pItem = it :: rest) :
    it.level = level := by
  cases w with
  | node a cs =>
      simp only [populateWidgetList] at h
      cases hm : makeWidgetItem vW vH level scale (Widget.node a cs) pItem with
      | none => rw [hm] at h; cases h
      | some item =>
          rw [hm] at h
          injection h with h1 h2
          subst h1
          exact (makeWidgetItem_fields hm).2.2.2.2.1

/-- The head item produced for a forest sits at the forest's level. -/
theorem populateChildren_head_level : ∀ (ws : List Widget) {vW vH : ℚ}
    {level : Nat} {scale : ℚ} {pItem : Option WidgetItem} {it : WidgetItem}
    {rest : List WidgetItem},
    populateChildrenList vW vH level scale ws pItem = it :: rest →
    it.level = level := by
  intro ws
  induction ws with
  | nil => intro _ _ _ _ _ _ _ h; cases h
  | cons c cs ih =>
      intro vW vH level scale pItem it rest h
      simp only [populateChildrenList] at h
      cases hc : populateWidgetList vW vH level scale c pItem with
      | nil =>
          rw [hc, List.nil_append] at h
          exact ih h
      | cons it2 tl =>
          rw [hc, List.cons_append] at h
          injection h with h1 h2
          subst h1
          exact populate_head_level hc

/-- Pushing an item onto the stack and continuing with a list whose head
(if any) is at most as deep just prepends the pushed item to the finalize
order. -/
theorem renderLoop_push (it : WidgetItem) (rest stack : List WidgetItem)
    (h : ∀ q, rest.head? = some q → q.level ≤ it.level) :
    renderLoop rest (it :: stack) = it :: renderLoop rest stack := by
  cases rest with
  | nil => simp [renderLoop, popAndFinalize_zero]
  | cons q rest2 =>
      have hq := h q rfl
      simp only [renderLoop, popAndFinalizeWidgetItems,
        if_neg (Nat.not_lt.mpr hq), List.cons_append]

/-- The executor turns the planner's pre-order output into the matching
post-order finalize sequence.  Stated for an arbitrary continuation list
`rest` (whose head must not be deeper than the current level) and an
arbitrary already-open stack (strictly shallower than the current level). -/
theorem renderLoop_populate_postorder :
    (∀ (w : Widget) (vW vH : ℚ) (lvl : Nat) (scale : ℚ)
       (pItem : Option WidgetItem) (rest stack : List WidgetItem),
       (∀ j ∈ stack, j.level < lvl) →
       (∀ q, rest.head? = some q → q.level ≤ lvl) →
       renderLoop (populateWidgetList vW vH lvl scale w pItem ++ rest) stack =
         postorderWidgetItems vW vH lvl scale w pItem ++
           renderLoop rest stack) ∧
    (∀ (ws : List Widget) (vW vH : ℚ) (lvl : Nat) (scale : ℚ)
       (pItem : Option WidgetItem) (rest stack : List WidgetItem),
       (∀ j ∈ stack, j.level < lvl) →
       (∀ q, rest.head? = some q → q.level < lvl) →
       renderLoop (populateChildrenList vW vH lvl scale ws pItem ++ rest)
           stack =
         postorderChildrenItems vW vH lvl scale ws pItem ++
           renderLoop rest stack) := by
  refine widgetInd _ _ ?_ ?_ ?_
  · intro a cs ih vW vH lvl scale pItem rest stack hstack hrest
    simp only [populateWidgetList, postorderWidgetItems]
    cases hm : makeWidgetItem vW vH lvl scale (Widget.node a cs) pItem with
    | none => simp
    | some item =>
        have hlvl : item.level = lvl := (makeWidgetItem_fields hm).2.2.2.2.1
        have hstack2 : ∀ j ∈ stack, j.level < item.level := by
          intro j hj
          rw [hlvl]
          exact hstack j hj
        have hstack3 : ∀ j ∈ item :: stack, j.level < lvl + 1 := by
          intro j hj
          rcases List.mem_cons.mp hj with rfl | hj
          · rw [hlvl]; exact Nat.lt_succ_self lvl
          · exact Nat.lt_succ_of_lt (hstack j hj)
        have hrest2 : ∀ q, rest.head? = some q → q.level < lvl + 1 :=
          fun q hq => Nat.lt_succ_of_le (hrest q hq)
        have hrest3 : ∀ q, rest.head? = some q → q.level ≤ item.level := by
          intro q hq
          rw [hlvl]
          exact hrest q hq
        calc renderLoop ((item ::
                populateChildrenList vW vH (lvl + 1) (scale * a.scale) cs
                  (some item)) ++ rest) stack
            = renderLoop (populateChildrenList vW vH (lvl + 1)
                (scale * a.scale) cs (some item) ++ rest) (item :: stack) := by
              simp only [List.cons_append, renderLoop,
                popAndFinalize_no_pop hstack2, List.nil_append]
              try rfl
          _ = postorderChildrenItems vW vH (lvl + 1) (scale * a.scale) cs
                (some item) ++ renderLoop rest (item :: stack) :=
              ih vW vH (lvl + 1) (scale * a.scale) (some item) rest
                (item :: stack) hstack3 hrest2
          _ = postorderChildrenItems vW vH (lvl + 1) (scale * a.scale) cs
                (some item) ++ (item :: renderLoop rest stack) := by
              rw [renderLoop_push item rest stack hrest3]
          _ = (postorderChildrenItems vW vH (lvl + 1) (scale * a.scale) cs
                (some item) ++ [item]) ++ renderLoop rest stack := by
              simp
  · intro vW vH lvl scale pItem rest stack hstack hrest
    simp [populateChildrenList, postorderChildrenItems]
  · intro c cs ihc ihcs vW vH lvl scale pItem rest stack hstack hrest
    have hhead : ∀ q,
        (populateChildrenList vW vH lvl scale cs pItem ++ rest).head? =
          some q → q.level ≤ lvl := by
      intro q hq
      cases hcs : populateChildrenList vW vH lvl scale cs pItem with
      | nil =>
          rw [hcs, List.nil_append] at hq
          exact Nat.le_of_lt (hrest q hq)
      | cons it2 tl =>
          rw [hcs, List.cons_append] at hq
          injection hq with hq2
          subst hq2
          exact Nat.le_of_eq (populateChildren_head_level cs hcs)
    calc renderLoop (populateChildrenList vW vH lvl scale (c :: cs) pItem ++
            rest) stack
        = renderLoop (populateWidgetList vW vH lvl scale c pItem ++
            (populateChildrenList vW vH lvl scale cs pItem ++ rest)) stack := by
          simp only [populateChildrenList, List.append_assoc]
      _ = postorderWidgetItems vW vH lvl scale c pItem ++
            renderLoop (populateChildrenList vW vH lvl scale cs pItem ++ rest)
              stack :=
          ihc vW vH lvl scale pItem _ stack hstack hhead
      _ = postorderWidgetItems vW vH lvl scale c pItem ++
            (postorderChildrenItems vW vH lvl scale cs pItem ++
              renderLoop rest stack) := by
          rw [ihcs vW vH lvl scale pItem rest stack hstack hrest]
      _ = postorderChildrenItems vW vH lvl scale (c :: cs) pItem ++
            renderLoop rest stack := by
          simp [postorderChildrenItems]

/-- Top-level corollary: one `Render()` pass finalizes the planner's items
exactly in post-order of the pruned tree. -/
theorem renderFinalizeOrder_eq_postorder (w : Widget) (vW vH : ℚ) :
    renderFinalizeOrder (populateWidgetList vW vH 0 1 w none) =
      postorderWidgetItems vW vH 0 1 w none := by
  have h := renderLoop_populate_postorder.1 w vW vH 0 1 none [] []
    (by intro j hj; cases hj) (by intro q hq; cases hq)
  simpa [renderFinalizeOrder, renderLoop, popAndFinalize_zero] using h

/-- The will-render pass trace is exactly its hook sequence with each hook
wrapped in its own save/restore pair. -/
theorem willRenderTrace_eq_wrap :
    (∀ (b : Bool) (w : Widget),
       widgetViewWillRenderTrace b w =
         (willRenderHooks b w).flatMap
           (fun h => [RenderPassEv.save, h, RenderPassEv.restore])) ∧
    (∀ ws : List Widget,
       widgetViewWillRenderTraceList ws =
         (willRenderHooksList ws).flatMap
           (fun h => [RenderPassEv.save, h, RenderPassEv.restore])) := by
  have h := widgetInd
    (fun w => ∀ b : Bool,
       widgetViewWillRenderTrace b w =
         (willRenderHooks b w).flatMap
           (fun h => [RenderPassEv.save, h, RenderPassEv.restore]))
    (fun ws =>
       widgetViewWillRenderTraceList ws =
         (willRenderHooksList ws).flatMap
           (fun h => [RenderPassEv.save, h, RenderPassEv.restore]))
    ?_ ?_ ?_
  · exact ⟨fun b w => h.1 w b, h.2⟩
  · intro a cs ih b
    simp [widgetViewWillRenderTrace, willRenderHooks, List.flatMap_cons, ih]
  · simp [widgetViewWillRenderTraceList, willRenderHooksList]
  · intro c cs ihc ihcs
    simp [widgetViewWillRenderTraceList, willRenderHooksList,
      List.flatMap_append, ihc, ihcs]

/-- The did-render pass trace is exactly its hook sequence with each hook
wrapped in its own save/restore pair. -/
theorem didRenderTrace_eq_wrap :
    (∀ (b : Bool) (w : Widget),
       widgetViewDidRenderTrace b w =
         (didRenderHooks b w).flatMap
           (fun h => [RenderPassEv.save, h, RenderPassEv.restore])) ∧
    (∀ ws : List Widget,
       widgetViewDidRenderTraceList ws =
         (didRenderHooksList ws).flatMap
           (fun h => [RenderPassEv.save, h, RenderPassEv.restore])) := by
  have h := widgetInd
    (fun w => ∀ b : Bool,
       widgetViewDidRenderTrace b w =
         (didRenderHooks b w).flatMap
           (fun h => [RenderPassEv.save, h, RenderPassEv.restore]))
    (fun ws =>
       widgetViewDidRenderTraceList ws =
         (didRenderHooksList ws).flatMap
           (fun h => [RenderPassEv.save, h, RenderPassEv.restore]))
    ?_ ?_ ?_
  · exact ⟨fun b w => h.1 w b, h.2⟩
  · intro a cs ih b
    simp [widgetViewDidRenderTrace, didRenderHooks, List.flatMap_cons, ih]
  · simp [widgetViewDidRenderTraceList, didRenderHooksList]
  · intro c cs ihc ihcs
    simp [widgetViewDidRenderTraceList, didRenderHooksList,
      List.flatMap_append, ihc, ihcs]

/-- The will-render hooks of a non-root subtree are exactly the hooks of
every node of the subtree, hidden or not, in pre-order. -/
theorem willRenderHooks_eq_map_allIds :
    (∀ w : Widget, willRenderHooks false w =
       (allIds w).map RenderPassEv.widgetWillHook) ∧
    (∀ ws : List Widget, willRenderHooksList ws =
       (allIdsList ws).map RenderPassEv.widgetWillHook) := by
  refine widgetInd _ _ ?_ ?_ ?_
  · intro a cs ih
    simp [willRenderHooks, allIds, ih]
  · simp [willRenderHooksList, allIdsList]
  · intro c cs ihc ihcs
    simp [willRenderHooksList, allIdsList, ihc, ihcs]

/-- The did-render hooks of a non-root subtree are exactly the hooks of
every node of the subtree, hidden or not, in pre-order. -/
theorem didRenderHooks_eq_map_allIds :
    (∀ w : Widget, didRenderHooks false w =
       (allIds w).map RenderPassEv.widgetDidHook) ∧
    (∀ ws : List Widget, didRenderHooksList ws =
       (allIdsList ws).map RenderPassEv.widgetDidHook) := by
  refine widgetInd _ _ ?_ ?_ ?_
  · intro a cs ih
    simp [didRenderHooks, allIds, ih]
  · simp [didRenderHooksList, allIdsList]
  · intro c cs ihc ihcs
    simp [didRenderHooksList, allIdsList, ihc, ihcs]

/-- Modelled from the spec: the length, along one axis, of the rectangle
intersection of an interval starting at `a` with length `la` and an
interval starting at `b` with length `lb` (the intersection starts at
`max a b`). -/
def interLen (a la b lb : ℚ) : ℚ := min (a + la) (b + lb) - max a b

/-- The scissor fields of an item built for a widget that has a parent
item, as literal min/max formulas over the parent's scissor rectangle and
the widget's scaled bounding rectangle. -/
theorem makeWidgetItem_some_child {vW vH : ℚ} {level : Nat} {scale : ℚ}
    {a : WidgetAttr} {cs : List Widget} {p it : WidgetItem}
    (h : makeWidgetItem vW vH level scale (Widget.node a cs) (some p) =
      some it) :
    it.translated_origin = ⟨p.translated_origin.x + a.x * scale,
      p.translated_origin.y + a.y * scale⟩ ∧
    it.scissor_origin = ⟨max p.scissor_origin.x
        (p.translated_origin.x + a.x * scale),
      max p.scissor_origin.y (p.translated_origin.y + a.y * scale)⟩ ∧
    it.scissor_width = min
      (min (a.width * scale * a.scale)
        (p.scissor_origin.x + p.scissor_width -
          max p.scissor_origin.x (p.translated_origin.x + a.x * scale)))
      (max p.scissor_origin.x (p.translated_origin.x + a.x * scale) +
        a.width * scale * a.scale - p.scissor_origin.x) ∧
    it.scissor_height = min
      (min (a.height * scale * a.scale)
        (p.scissor_origin.y + p.scissor_height -
          max p.scissor_origin.y (p.translated_origin.y + a.y * scale)))
      (max p.scissor_origin.y (p.translated_origin.y + a.y * scale) +
        a.height * scale * a.scale - p.scissor_origin.y) := by
  simp only [makeWidgetItem, Widget.attr_node] at h
  split_ifs at h
  injection h with h2
  subst h2
  exact ⟨rfl, rfl, rfl, rfl⟩

/-- When the child's translated origin is not to the left of (resp. not
above) the parent's scissor origin, the literal scissor formula of the
code equals the exact intersection length. -/
theorem scissor_formula_eq_interLen {px pw tx sw : ℚ} (hle : px ≤ tx) :
    min (min sw (px + pw - max px tx)) (max px tx + sw - px) =
      interLen px pw tx sw := by
  rw [interLen, max_eq_right hle]
  have hY : min sw (px + pw - tx) ≤ tx + sw - px :=
    le_trans (min_le_left _ _) (by linarith)
  rw [min_eq_left hY]
  have : min (px + pw) (tx + sw) - tx = min (px + pw - tx) (tx + sw - tx) := by
    rw [min_sub_sub_right]
  rw [this, min_comm]
  congr 1
  ring

/-- If the exact intersection of the parent's scissor rectangle with the
widget's scaled bounding rectangle is empty (non-positive length on some
axis), the widget is rejected by `makeWidgetItem`. -/
theorem makeWidgetItem_none_of_empty_inter {vW vH : ℚ} {level : Nat}
    {scale : ℚ} {a : WidgetAttr} {cs : List Widget} {p : WidgetItem}
    (hempty :
      interLen p.scissor_origin.x p.scissor_width
          (p.translated_origin.x + a.x * scale)
          (a.width * scale * a.scale) ≤ 0 ∨
      interLen p.scissor_origin.y p.scissor_height
          (p.translated_origin.y + a.y * scale)
          (a.height * scale * a.scale) ≤ 0) :
    makeWidgetItem vW vH level scale (Widget.node a cs) (some p) = none := by
  simp only [makeWidgetItem, Widget.attr_node]
  split_ifs with h1 h2 h3 h4 h5 h6 h7 h8
  · rfl
  · rfl
  · rfl
  · rfl
  · rfl
  · rfl
  · rfl
  · rfl
  · exfalso
    push_neg at h6 h7 h8
    obtain ⟨h6x, h6y⟩ := h6
    obtain ⟨h7pos, -⟩ := h7
    obtain ⟨h8pos, -⟩ := h8
    have h7a := lt_min_iff.mp h7pos
    have h7b := lt_min_iff.mp h7a.1
    have h8a := lt_min_iff.mp h8pos
    have h8b := lt_min_iff.mp h8a.1
    rcases hempty with hx | hy
    · rw [interLen, sub_nonpos] at hx
      rcases min_le_iff.mp hx with h | h
      · linarith [h7b.2]
      · linarith [h6x]
    · rw [interLen, sub_nonpos] at hy
      rcases min_le_iff.mp hy with h | h
      · linarith [h8b.2]
      · linarith [h6y]

/-- If the exact intersection is empty, the planner produces no item for
the widget nor for any of its descendants. -/
theorem populate_none_of_empty_inter {vW vH : ℚ} {level : Nat}
    {scale : ℚ} {a : WidgetAttr} {cs : List Widget} {p : WidgetItem}
    (hempty :
      interLen p.scissor_origin.x p.scissor_width
          (p.translated_origin.x + a.x * scale)
          (a.width * scale * a.scale) ≤ 0 ∨
      interLen p.scissor_origin.y p.scissor_height
          (p.translated_origin.y + a.y * scale)
          (a.height * scale * a.scale) ≤ 0) :
    populateWidgetList vW vH level scale (Widget.node a cs) (some p) = [] := by
  simp only [populateWidgetList, makeWidgetItem_none_of_empty_inter hempty]

/-- While a pass is in progress, a repeated request leaves
`waiting_for_redraw_` set and the state otherwise unchanged. -/
theorem applyConcurrent_fix : ∀ (n k : Nat),
    applyConcurrentRedraws n ⟨true, true, k⟩ = ⟨true, true, k⟩ := by
  intro n
  induction n with
  | zero => intro k; rfl
  | succ m ih =>
      intro k
      simp only [applyConcurrentRedraws, redrawEntry]
      simpa using ih k

/-- At least one concurrent request during an in-progress pass sets the
pending flag (and nothing else). -/
theorem applyConcurrent_sets_waiting : ∀ (n : Nat) (w : Bool) (k : Nat),
    1 ≤ n → applyConcurrentRedraws n ⟨true, w, k⟩ = ⟨true, true, k⟩ := by
  intro n w k hn
  cases n with
  | zero => cases hn
  | succ m =>
      simp only [applyConcurrentRedraws, redrawEntry]
      simpa using applyConcurrent_fix m k

/-- A `Redraw()` call that arrives while a pass is already in progress
only sets the pending flag and returns, without rendering. -/
theorem redraw_busy (fuel : Nat) (arr : List Nat) (w : Bool) (k : Nat) :
    redraw (fuel + 1) arr ⟨true, w, k⟩ = ⟨true, true, k⟩ := by
  simp [redraw, redrawEntry]

/-- An undisturbed `Redraw()` call performs exactly one render pass and
clears both flags. -/
theorem redraw_single_pass (fuel k : Nat) :
    redraw (fuel + 1) [] ⟨false, false, k⟩ = ⟨false, false, k + 1⟩ := by
  simp [redraw, redrawEntry, applyConcurrentRedraws]

/-- Any `n ≥ 1` requests arriving during one in-progress pass are
coalesced into exactly one additional pass. -/
theorem redraw_coalesces (fuel n k : Nat) (hn : 1 ≤ n) :
    redraw (fuel + 2) [n] ⟨false, false, k⟩ = ⟨false, false, k + 2⟩ := by
  simp [redraw, redrawEntry, applyConcurrentRedraws,
    applyConcurrent_sets_waiting n false (k + 1) hn]

/-! ### Concrete trees used by the claim theorems -/

/-- Child of the §8 scenario: at point (50,50), resolved size 400×300,
scale 1, not hidden. -/
def scenarioChildW : Widget :=
  Widget.node ⟨1, false, 400, 300, 50, 50, 1, fun _ => false⟩ []

/-- Root of the §8 scenario: the 800×600 root widget. -/
def scenarioRootW : Widget :=
  Widget.node ⟨0, false, 800, 600, 0, 0, 1, fun _ => false⟩ [scenarioChildW]

/-- The planner's item for the scenario root. -/
def scenarioRootItem : WidgetItem :=
  ⟨scenarioRootW, ⟨0, 0⟩, 800, 600, 0, 1, ⟨0, 0⟩, ⟨0, 0⟩, 800, 600⟩

/-- The planner's item for the scenario child. -/
def scenarioChildItem : WidgetItem :=
  ⟨scenarioChildW, ⟨50, 50⟩, 400, 300, 1, 1, ⟨50, 50⟩, ⟨50, 50⟩, 400, 300⟩

/-- A child that overhangs its parent's scissor rectangle on the left:
local x = −50, width 100. -/
def overhangChildW : Widget :=
  Widget.node ⟨1, false, 100, 100, -50, 0, 1, fun _ => false⟩ []

/-- An 800×600 root with the overhanging child. -/
def overhangRootW : Widget :=
  Widget.node ⟨0, false, 800, 600, 0, 0, 1, fun _ => false⟩ [overhangChildW]

/-- A hidden child whose own hit-test predicate accepts every point. -/
def hiddenAcceptingW : Widget :=
  Widget.node ⟨1, true, 10, 10, 0, 0, 1, fun _ => true⟩ []

/-- A visible root owning only `hiddenAcceptingW`. -/
def hiddenAcceptingRootW : Widget :=
  Widget.node ⟨0, false, 10, 10, 0, 0, 1, fun _ => false⟩ [hiddenAcceptingW]

/-- A widget accepting every point, below a hidden parent. -/
def buriedAcceptingW : Widget :=
  Widget.node ⟨2, false, 10, 10, 0, 0, 1, fun _ => true⟩ []

/-- A hidden node (rejecting every point) whose child accepts every
point. -/
def hiddenCoverW : Widget :=
  Widget.node ⟨1, true, 10, 10, 0, 0, 1, fun _ => false⟩ [buriedAcceptingW]

/-- A visible root owning only `hiddenCoverW`. -/
def hiddenCoverRootW : Widget :=
  Widget.node ⟨0, false, 10, 10, 0, 0, 1, fun _ => false⟩ [hiddenCoverW]

/-- Sibling X (first added), accepting every point. -/
def siblingXW : Widget :=
  Widget.node ⟨1, false, 10, 10, 0, 0, 1, fun _ => true⟩ []

/-- Sibling Y (second added), accepting every point. -/
def siblingYW : Widget :=
  Widget.node ⟨2, false, 10, 10, 0, 0, 1, fun _ => true⟩ []

/-- Sibling Z (last added), accepting every point. -/
def siblingZW : Widget :=
  Widget.node ⟨3, false, 10, 10, 0, 0, 1, fun _ => true⟩ []

/-- A root with the three overlapping siblings added in order X, Y, Z. -/
def siblingRootW : Widget :=
  Widget.node ⟨0, false, 10, 10, 0, 0, 1, fun _ => false⟩
    [siblingXW, siblingYW, siblingZW]

/-- A root that accepts no point and has no children. -/
def rejectingRootW : Widget :=
  Widget.node ⟨0, false, 10, 10, 0, 0, 1, fun _ => false⟩ []

/-- A visible, accepting widget used as a previously stored responder. -/
def previousResponderW : Widget :=
  Widget.node ⟨7, false, 10, 10, 0, 0, 1, fun _ => true⟩ []

/-- Linear chain: leaf C (depth 2). -/
def chainCW : Widget :=
  Widget.node ⟨12, false, 10, 10, 0, 0, 1, fun _ => false⟩ []

/-- Linear chain: middle node B (depth 1). -/
def chainBW : Widget :=
  Widget.node ⟨11, false, 10, 10, 0, 0, 1, fun _ => false⟩ [chainCW]

/-- Linear chain: root A (depth 0). -/
def chainAW : Widget :=
  Widget.node ⟨10, false, 10, 10, 0, 0, 1, fun _ => false⟩ [chainBW]

/-- A visible root with one hidden child, for the render-pass claims. -/
def hiddenPassChildW : Widget :=
  Widget.node ⟨1, true, 10, 10, 0, 0, 1, fun _ => false⟩ []

/-- Root of the render-pass counterexample tree. -/
def hiddenPassRootW : Widget :=
  Widget.node ⟨0, false, 10, 10, 0, 0, 1, fun _ => false⟩ [hiddenPassChildW]

/-! ### Claim theorems -/

/-- C3: for every widget tree, the Visibility/Clip Planner's output list
is in pre-order tree-walk order — every item's node appears before any
item of that node's descendants — and every item's `level` field equals
the depth of its node in the source tree (the output, keyed by node id
and level, is a sublist of the tree's pre-order id/depth listing). -/
theorem claim_planner_preorder_levels :
    ∀ (w : Widget) (vW vH : ℚ) (level : Nat) (scale : ℚ)
      (pItem : Option WidgetItem),
      ((populateWidgetList vW vH level scale w pItem).map itemKey).Sublist
        (preorderIdLevels level w) :=
  fun w vW vH level scale pItem =>
    populate_key_sublist_preorder.1 w vW vH level scale pItem

/-- C4: a node that is hidden, or whose resolved width or height is ≤ 0,
produces no render item, for itself nor for any of its descendants. -/
theorem claim_hidden_or_degenerate_pruned :
    ∀ (vW vH : ℚ) (level : Nat) (scale : ℚ) (a : WidgetAttr)
      (cs : List Widget) (pItem : Option WidgetItem),
      (a.hidden = true ∨ a.width ≤ 0 ∨ a.height ≤ 0) →
      populateWidgetList vW vH level scale (Widget.node a cs) pItem = [] := by
  intro vW vH level scale a cs pItem h
  have hm : makeWidgetItem vW vH level scale (Widget.node a cs) pItem =
      none := by
    simp only [makeWidgetItem, Widget.attr_node]
    rcases h with h | h | h
    · simp [h]
    · by_cases hh : a.hidden = true
      · simp [hh]
      · simp [hh, h]
    · by_cases hh : a.hidden = true
      · simp [hh]
      · by_cases hw : a.width ≤ 0
        · simp [hh, hw]
        · simp [hh, hw, h]
  simp [populateWidgetList, hm]

/-- Witness for C4: a concrete hidden node yields the empty item list. -/
theorem claim_hidden_or_degenerate_pruned_witness :
    populateWidgetList 10 10 0 1 (Widget.node
      ⟨5, true, 10, 10, 0, 0, 1, fun _ => false⟩ []) none = [] :=
  claim_hidden_or_degenerate_pruned 10 10 0 1 _ [] none (Or.inl rfl)

/-- C5: the Render Executor finalizes every pushed item exactly once (as a
multiset, the finalize order is a permutation of the item list); pops are
exactly the maximal top run of stacked items with level ≥ the incoming
level (and the final level-0 call empties the stack); on the planner's
output the finalize order is the post-order of the pruned tree, so a
node's did-render hook fires only after all of its rendered descendants;
for the linear chain A→B→C the did-render order is C, then B, then A. -/
theorem claim_executor_stack_discipline :
    (∀ items : List WidgetItem, (renderFinalizeOrder items).Perm items) ∧
    (∀ (level : Nat) (stack : List WidgetItem),
       popAndFinalizeWidgetItems level stack =
         (stack.dropWhile (fun i => !decide (i.level < level)),
          stack.takeWhile (fun i => !decide (i.level < level)))) ∧
    (∀ (w : Widget) (vW vH : ℚ),
       renderFinalizeOrder (populateWidgetList vW vH 0 1 w none) =
         postorderWidgetItems vW vH 0 1 w none) ∧
    ((renderFinalizeOrder (populateWidgetList 10 10 0 1 chainAW none)).map
        (fun it => it.widget.attr.id)) = [12, 11, 10] := by
  refine ⟨?_, ?_, ?_, ?_⟩
  · intro items
    simpa using renderLoop_perm items []
  · intro level stack
    exact popAndFinalize_take_drop level stack
  · intro w vW vH
    exact renderFinalizeOrder_eq_postorder w vW vH
  · norm_num [renderFinalizeOrder, renderLoop, popAndFinalizeWidgetItems,
      populateWidgetList, populateChildrenList, makeWidgetItem,
      chainAW, chainBW, chainCW, Widget.attr_node]

/-- C6: evaluation of `Widget::AddChild` at a parent (id 0) and a child
(id 1, no parent back-reference, stale memoized scale 2): the code only
appends the child to `children_`; the child's parent back-reference is
not set to the parent and its memoized measured scale is not cleared,
contradicting the claim. -/
theorem claim_addChild_child_untouched :
    addChild ⟨0, none, none, []⟩ ⟨1, none, some 2, []⟩ =
      (⟨0, none, none, [1]⟩, ⟨1, none, some 2, []⟩) ∧
    (addChild ⟨0, none, none, []⟩ ⟨1, none, some 2, []⟩).2.parent ≠
      some 0 ∧
    (addChild ⟨0, none, none, []⟩ ⟨1, none, some 2, []⟩).2.measuredScale =
      some 2 := by
  refine ⟨rfl, ?_, rfl⟩
  intro h
  cases h

/-- C7: a `Redraw()` call arriving while a pass is in progress only sets
the pending flag and returns without rendering; `n ≥ 1` requests arriving
during one in-progress pass yield exactly one additional pass (two passes
in total); an undisturbed call yields exactly one pass. -/
theorem claim_redraw_coalescing :
    (∀ (fuel : Nat) (arr : List Nat) (w : Bool) (k : Nat),
       redraw (fuel + 1) arr ⟨true, w, k⟩ = ⟨true, true, k⟩) ∧
    (∀ (fuel n k : Nat), 1 ≤ n →
       redraw (fuel + 2) [n] ⟨false, false, k⟩ = ⟨false, false, k + 2⟩) ∧
    (∀ (fuel k : Nat),
       redraw (fuel + 1) [] ⟨false, false, k⟩ = ⟨false, false, k + 1⟩) :=
  ⟨redraw_busy, fun fuel n k hn => redraw_coalesces fuel n k hn,
   redraw_single_pass⟩

/-- Witness for C7: two rapid triggers (one pass with 2 concurrent
requests) produce exactly two render passes. -/
theorem claim_redraw_coalescing_witness :
    redraw 2 [2] ⟨false, false, 0⟩ = ⟨false, false, 2⟩ :=
  claim_redraw_coalescing.2.1 0 2 0 (by decide)

/-- C10: when hit-test resolution returns `false`, the stored event
responder is left exactly as it was before the call. -/
theorem claim_miss_preserves_responder :
    ∀ (w : Widget) (p : Point) (resp : Option Widget),
      (shouldHandleEventW p w resp).1 = false →
      (shouldHandleEventW p w resp).2 = resp := by
  intro w p resp h
  have hch := shouldHandleEvent_eq_find.1 w p resp
  cases hf : (hitCandidates w).find? (fun c => c.attr.accepts p) with
  | none => rw [hch, hf]
  | some c =>
      rw [hch, hf] at h
      simp at h

/-- Witness for C10: a miss on a concrete tree keeps the previously
stored responder. -/
theorem claim_miss_preserves_responder_witness :
    (shouldHandleEventW ⟨1, 1⟩ rejectingRootW
        (some previousResponderW)).2 = some previousResponderW :=
  claim_miss_preserves_responder rejectingRootW ⟨1, 1⟩
    (some previousResponderW) rfl

/-- Counterexample to C2 as stated: a hidden child whose own predicate
accepts the point is tested and stored as the current event responder
(the claim says a node whose own hidden flag is set is never stored). -/
theorem claim_hidden_excluded_cex :
    (shouldHandleEventW ⟨1, 1⟩ hiddenAcceptingRootW none).1 = true ∧
    ((shouldHandleEventW ⟨1, 1⟩ hiddenAcceptingRootW none).2.map
       (fun c => (c.attr.id, c.attr.hidden))) = some (1, true) := by
  constructor <;>
    norm_num [shouldHandleEventW, shouldHandleChildren,
      hiddenAcceptingRootW, hiddenAcceptingW, Widget.attr_node]

/-- C2 (amended): hit-test resolution excludes the strict descendants of
hidden nodes entirely — in a tree with distinct node ids, no strict
descendant of a hidden node is ever tested as a responder candidate, and
none is ever stored as the current event responder; a hidden node itself,
however, is still tested by its parent's loop and can become the
responder. -/
theorem claim_hidden_descendants_excluded :
    ∀ (w : Widget) (p : Point) (resp : Option Widget),
      (allIds w).Nodup →
      (∀ c ∈ hitCandidates w, c.attr.id ∉ underHiddenIds w) ∧
      (∀ c : Widget, shouldHandleEventW p w resp = (true, some c) →
         c.attr.id ∉ underHiddenIds w) := by
  intro w p resp hnd
  refine ⟨hitCandidates_id_not_underHidden.1 w hnd, ?_⟩
  intro c hc
  rw [shouldHandleEvent_eq_find.1 w p resp] at hc
  cases hf : (hitCandidates w).find? (fun c => c.attr.accepts p) with
  | none => rw [hf] at hc; simp at hc
  | some d =>
      rw [hf] at hc
      have hd : d ∈ hitCandidates w := List.mem_of_find?_eq_some hf
      have : d = c := by simpa using hc
      subst this
      exact hitCandidates_id_not_underHidden.1 w hnd d hd

/-- Witness for C2 (amended): on the concrete tree with a hidden node
covering an accepting descendant, no tested candidate and no stored
responder is a strict descendant of a hidden node. -/
theorem claim_hidden_descendants_excluded_witness :
    (∀ c ∈ hitCandidates hiddenCoverRootW,
       c.attr.id ∉ underHiddenIds hiddenCoverRootW) ∧
    (∀ c : Widget,
       shouldHandleEventW ⟨1, 1⟩ hiddenCoverRootW none = (true, some c) →
       c.attr.id ∉ underHiddenIds hiddenCoverRootW) :=
  claim_hidden_descendants_excluded hiddenCoverRootW ⟨1, 1⟩ none (by decide)

/-- Counterexample to C8 as stated: with a hidden node above an accepting
descendant, the first node in the claimed testing order (reverse insertion
order, recursing into children before testing each child, with no hidden
exclusion) accepts the point, yet the resolver returns `false` and stores
nothing. -/
theorem claim_hit_test_order_cex :
    (((specHitOrder hiddenCoverRootW).find?
        (fun c => c.attr.accepts ⟨1, 1⟩)).map (fun c => c.attr.id)) =
      some 2 ∧
    (shouldHandleEventW ⟨1, 1⟩ hiddenCoverRootW none).1 = false ∧
    (shouldHandleEventW ⟨1, 1⟩ hiddenCoverRootW none).2 = none := by
  refine ⟨?_, ?_, ?_⟩ <;>
    norm_num [specHitOrder, specHitOrderChildren, shouldHandleEventW,
      shouldHandleChildren, hiddenCoverRootW, hiddenCoverW,
      buriedAcceptingW, Widget.attr_node, List.find?]

/-- C8 (amended): the resolver tests candidates in reverse insertion
order, recursing into each child's subtree before testing the child
itself, except that it does not recurse below hidden nodes (a hidden
child is still tested itself); the first candidate in this order whose
predicate accepts the point becomes the sole responder, and a miss leaves
the responder unchanged; in particular, for non-hidden siblings added in
order X, Y, Z all accepting the point, Z becomes the responder. -/
theorem claim_hit_test_order :
    (∀ (w : Widget) (p : Point) (resp : Option Widget),
       shouldHandleEventW p w resp =
         match (hitCandidates w).find? (fun c => c.attr.accepts p) with
         | some c => (true, some c)
         | none => (false, resp)) ∧
    (shouldHandleEventW ⟨1, 1⟩ siblingRootW none).1 = true ∧
    ((shouldHandleEventW ⟨1, 1⟩ siblingRootW none).2.map
       (fun c => c.attr.id)) = some 3 := by
  refine ⟨shouldHandleEvent_eq_find.1, ?_, ?_⟩ <;>
    norm_num [shouldHandleEventW, shouldHandleChildren, siblingRootW,
      siblingXW, siblingYW, siblingZW, Widget.attr_node]

/-- Counterexample to C9 as stated: both tree-wide passes invoke the hook
of a hidden node (the claim says hidden nodes are skipped). -/
theorem claim_render_passes_hidden_cex :
    ((widgetViewWillRenderTrace true hiddenPassRootW).contains
       (RenderPassEv.widgetWillHook 1)) = true ∧
    ((widgetViewDidRenderTrace true hiddenPassRootW).contains
       (RenderPassEv.widgetDidHook 1)) = true ∧
    hiddenPassChildW.attr.hidden = true := by
  refine ⟨?_, ?_, rfl⟩ <;> decide

/-- C9 (amended): the two tree-wide passes visit every attached node
top-down recursively — hidden nodes included, their hooks are invoked as
well — wrapping each hook invocation in its own save/restore pair: each
trace is its hook sequence with every hook wrapped in save/restore, and
the hook sequence is the full pre-order of the tree (`ViewWillRender` /
`ViewDidRender` for the root widget, the per-widget hook for every other
node). -/
theorem claim_render_passes_visit_all :
    (∀ (b : Bool) (w : Widget),
       widgetViewWillRenderTrace b w =
         (willRenderHooks b w).flatMap
           (fun h => [RenderPassEv.save, h, RenderPassEv.restore])) ∧
    (∀ (b : Bool) (w : Widget),
       widgetViewDidRenderTrace b w =
         (didRenderHooks b w).flatMap
           (fun h => [RenderPassEv.save, h, RenderPassEv.restore])) ∧
    (∀ w : Widget, willRenderHooks false w =
       (allIds w).map RenderPassEv.widgetWillHook) ∧
    (∀ w : Widget, didRenderHooks false w =
       (allIds w).map RenderPassEv.widgetDidHook) ∧
    (∀ (a : WidgetAttr) (cs : List Widget),
       willRenderHooks true (Widget.node a cs) =
         RenderPassEv.viewWillRender ::
           (allIdsList cs).map RenderPassEv.widgetWillHook) ∧
    (∀ (a : WidgetAttr) (cs : List Widget),
       didRenderHooks true (Widget.node a cs) =
         RenderPassEv.viewDidRender ::
           (allIdsList cs).map RenderPassEv.widgetDidHook) := by
  refine ⟨willRenderTrace_eq_wrap.1, didRenderTrace_eq_wrap.1,
    willRenderHooks_eq_map_allIds.1, didRenderHooks_eq_map_allIds.1,
    ?_, ?_⟩
  · intro a cs
    simp [willRenderHooks, willRenderHooks_eq_map_allIds.2]
  · intro a cs
    simp [didRenderHooks, didRenderHooks_eq_map_allIds.2]

/-- Counterexample to C1 as stated: for a child that overhangs its
parent's scissor rectangle on the left (local x = −50, width 100, under
an 800×600 root), the emitted scissor width is 100, while the exact
rectangle intersection of the parent's scissor rectangle (0,0,800,600)
with the child's scaled bounding rectangle (−50,0,100,100) has width 50. -/
theorem claim_scissor_intersection_cex :
    ((populateWidgetList 800 600 0 1 overhangRootW none).map
       (fun it => (it.widget.attr.id, it.translated_origin.x,
         it.scissor_origin.x, it.scissor_width))) =
      [(0, 0, 0, 800), (1, -50, 0, 100)] ∧
    interLen 0 800 (-50) 100 = 50 ∧
    (100 : ℚ) ≠ 50 := by
  refine ⟨?_, ?_, ?_⟩ <;>
    norm_num [populateWidgetList, populateChildrenList, makeWidgetItem,
      overhangRootW, overhangChildW, Widget.attr_node, interLen]

/-- C1 (amended): for a node with a parent item, the emitted item's
translated origin is the parent's translated origin plus the node's local
position scaled by the inherited scale; the scissor origin is the
componentwise max of the parent's scissor origin and the translated
origin; the scissor width (resp. height) is the literal formula
`min (min scaledSize (parentEdge − scissorOrigin))
(scissorOrigin + scaledSize − parentOrigin)`, which equals the exact
rectangle-intersection length whenever the translated origin is not left
of / above the parent's scissor origin; whenever the exact intersection is
empty, the node and its entire subtree produce no render items; and in the
800×600 scenario the child's item has translated origin (50,50) and
scissor (50,50,400,300). -/
theorem claim_scissor_formula_and_pruning :
    (∀ (vW vH : ℚ) (level : Nat) (scale : ℚ) (a : WidgetAttr)
       (cs : List Widget) (p it : WidgetItem) (rest : List WidgetItem),
       populateWidgetList vW vH level scale (Widget.node a cs) (some p) =
         it :: rest →
       (it.translated_origin = ⟨p.translated_origin.x + a.x * scale,
          p.translated_origin.y + a.y * scale⟩ ∧
        it.scissor_origin = ⟨max p.scissor_origin.x it.translated_origin.x,
          max p.scissor_origin.y it.translated_origin.y⟩ ∧
        it.scissor_width = min
          (min (a.width * scale * a.scale)
            (p.scissor_origin.x + p.scissor_width - it.scissor_origin.x))
          (it.scissor_origin.x + a.width * scale * a.scale -
            p.scissor_origin.x) ∧
        it.scissor_height = min
          (min (a.height * scale * a.scale)
            (p.scissor_origin.y + p.scissor_height - it.scissor_origin.y))
          (it.scissor_origin.y + a.height * scale * a.scale -
            p.scissor_origin.y)) ∧
       (p.scissor_origin.x ≤ it.translated_origin.x →
        p.scissor_origin.y ≤ it.translated_origin.y →
        it.scissor_width = interLen p.scissor_origin.x p.scissor_width
            it.translated_origin.x (a.width * scale * a.scale) ∧
        it.scissor_height = interLen p.scissor_origin.y p.scissor_height
            it.translated_origin.y (a.height * scale * a.scale))) ∧
    (∀ (vW vH : ℚ) (level : Nat) (scale : ℚ) (a : WidgetAttr)
       (cs : List Widget) (p : WidgetItem),
       (interLen p.scissor_origin.x p.scissor_width
           (p.translated_origin.x + a.x * scale)
           (a.width * scale * a.scale) ≤ 0 ∨
        interLen p.scissor_origin.y p.scissor_height
           (p.translated_origin.y + a.y * scale)
           (a.height * scale * a.scale) ≤ 0) →
       populateWidgetList vW vH level scale (Widget.node a cs) (some p) =
         []) ∧
    ((populateWidgetList 800 600 0 1 scenarioRootW none).map
       (fun it => (it.widget.attr.id, it.translated_origin,
         it.scissor_origin, it.scissor_width, it.scissor_height))) =
      [(0, ⟨0, 0⟩, ⟨0, 0⟩, 800, 600), (1, ⟨50, 50⟩, ⟨50, 50⟩, 400, 300)] := by
  refine ⟨?_, ?_, ?_⟩
  · intro vW vH level scale a cs p it rest h
    simp only [populateWidgetList] at h
    cases hm : makeWidgetItem vW vH level scale (Widget.node a cs)
        (some p) with
    | none => rw [hm] at h; cases h
    | some item =>
        rw [hm] at h
        injection h with h1 h2
        subst h1
        obtain ⟨hT, hO, hW, hH⟩ := makeWidgetItem_some_child hm
        refine ⟨⟨hT, ?_, ?_, ?_⟩, ?_⟩
        · simp only [hO, hT]
        · simp only [hW, hO, hT]
        · simp only [hH, hO, hT]
        · intro hx hy
          simp only [hT] at hx hy
          constructor
          · simp only [hW, hO, hT]
            exact scissor_formula_eq_interLen hx
          · simp only [hH, hO, hT]
            exact scissor_formula_eq_interLen hy
  · intro vW vH level scale a cs p h
    exact populate_none_of_empty_inter h
  · norm_num [populateWidgetList, populateChildrenList, makeWidgetItem,
      scenarioRootW, scenarioChildW, Widget.attr_node]

/-- Witness for C1 (amended): the formula applied to the scenario child
gives translated origin (50,50) and scissor (50,50,400,300), and the
pruning part applied to a child entirely left of the root's scissor
rectangle gives the empty item list. -/
theorem claim_scissor_formula_and_pruning_witness :
    scenarioChildItem.translated_origin = ⟨50, 50⟩ ∧
    scenarioChildItem.scissor_origin = ⟨50, 50⟩ ∧
    scenarioChildItem.scissor_width = 400 ∧
    scenarioChildItem.scissor_height = 300 ∧
    populateWidgetList 800 600 1 1
      (Widget.node ⟨2, false, 10, 10, -100, 0, 1, fun _ => false⟩ [])
      (some scenarioRootItem) = [] := by
  obtain ⟨hmain, hcond⟩ := claim_scissor_formula_and_pruning.1 800 600 1 1
    ⟨1, false, 400, 300, 50, 50, 1, fun _ => false⟩ [] scenarioRootItem
    scenarioChildItem []
    (by
      norm_num [populateWidgetList, populateChildrenList, makeWidgetItem,
        scenarioRootItem, scenarioChildItem, scenarioChildW,
        Widget.attr_node])
  have hprune := claim_scissor_formula_and_pruning.2.1 800 600 1 1
    ⟨2, false, 10, 10, -100, 0, 1, fun _ => false⟩ [] scenarioRootItem
    (by norm_num [interLen, scenarioRootItem])
  obtain ⟨hT, hO, hW, hH⟩ := hmain
  norm_num [scenarioRootItem] at hT hO hW hH
  refine ⟨hT, ?_, ?_, ?_, hprune⟩
  · simp only [hO, hT]
    norm_num [max_def]
  · rw [hW]
    simp only [hO, hT]
    norm_num [max_def, min_def]
  · rw [hH]
    simp only [hO, hT]
    norm_num [max_def, min_def]
